import Mathlib

/-!
Shallow embedding of the NEURO repository's test/benchmark orchestration
scripts and proofs about them.

Embedded sources:
  * `tools/check_benchmark_regression.py` (benchmark regression gate)
  * `tests/test_all_nr_files.py`          (corpus validator)
  * `tests/test_compilation_features.py`  (feature harness)
  * `tools/run_release_smoke_tests.py`    (release smoke tester)
  * `tests/run_all_tests.py`              (orchestrator)

External process invocations, the filesystem, and the JSON documents the
scripts read are modelled as explicit environment parameters; each script's
control flow is translated statement by statement.  Python floats are
modelled as exact rationals; unhandled Python exceptions are modelled as
`Except.error` values, and a Python process that dies with an unhandled
exception has process exit code 1.
-/

/-- Outcome of one `subprocess.run` invocation with a timeout, as seen by the
calling Python code: the process completed with an exit code and captured
standard error text, or `subprocess.TimeoutExpired` was raised, or some other
exception (e.g. `FileNotFoundError` when the executable is absent) was
raised. -/
inductive ProcOutcome where
  | completed (code : Int) (errText : String)
  | timedOut
  | raised (msg : String)
deriving DecidableEq, Repr

/-! ## Benchmark regression gate: `tools/check_benchmark_regression.py` -/

/-- What the filesystem holds at one `estimates.json` path: the file is
absent, or its JSON lacks a `mean.point_estimate` entry, or it has one with
the given numeric value. -/
inductive EstimatesFile where
  | absent
  | noPointEstimate
  | withMean (q : ℚ)
deriving DecidableEq, Repr

/-- The baseline JSON document: `benchmarks` is `none` when the key is
missing from the document, otherwise the key/budget pairs in insertion
order. -/
structure BaselineDoc where
  benchmarks : Option (List (String × ℚ))
deriving DecidableEq, Repr

/-- Errors with which the gate script can die (unhandled Python
exceptions). -/
inductive GateErr where
  | fileNotFound (path : String)
  | invalidFormat (path : String)
  | unpackErr (key : String)
  | zeroDivision
deriving DecidableEq, Repr

/-- Split a character list at the first `/`: the part before it and the
(unsplit) remainder after it, or `none` when no `/` occurs. -/
def splitFirstSlash : List Char → Option (List Char × List Char)
  | [] => none
  | c :: cs =>
    if c = '/' then some ([], cs)
    else
      match splitFirstSlash cs with
      | none => none
      | some (g, n) => some (c :: g, n)

/-- `benchmark_key.split("/", maxsplit=1)`: group before the first slash,
name the remainder; a key without a slash makes the two-name unpacking
raise `ValueError`. -/
def splitKey (key : String) : Except GateErr (String × String) :=
  match splitFirstSlash key.data with
  | none => .error (.unpackErr key)
  | some (g, n) => .ok (String.mk g, String.mk n)

/-- `<results_root>/<group>/<name>/new/estimates.json`. -/
def estimatesPath (root g n : String) : String :=
  root ++ ("/") ++ g ++ ("/") ++ n ++ ("/new/estimates.json")

/-- `read_criterion_mean_ns`: derive the estimates path for a benchmark key,
raise `FileNotFoundError` if it is absent, raise `ValueError` if the
document lacks `mean.point_estimate`, else return the estimate. -/
def readCriterionMeanNs (fs : String → EstimatesFile) (root key : String) :
    Except GateErr ℚ := do
  let (g, n) ← splitKey key
  match fs (estimatesPath root g n) with
  | .absent => .error (.fileNotFound (estimatesPath root g n))
  | .noPointEstimate => .error (.invalidFormat (estimatesPath root g n))
  | .withMean q => .ok q

/-- One row of the gate's per-key report: measured, baseline budget, allowed
budget and slowdown factor, as printed before the pass/fail decision. -/
structure RegCheck where
  key : String
  measured : ℚ
  baseline : ℚ
  allowed : ℚ
  slowdown : ℚ
deriving DecidableEq, Repr

/-- Result of a gate run that did not die with an exception: the `return`
value of `main`, the per-key checks in baseline order, and the failure
messages accumulated in baseline order. -/
structure GateRun where
  retCode : Nat
  checks : List RegCheck
  failures : List String
deriving DecidableEq, Repr

/-- The failure line the gate appends when a key exceeds its allowed
budget (numeric formatting approximated by `toString`). -/
def budgetMsg (key : String) (m allowed : ℚ) : String :=
  key ++ (" exceeded budget: measured ") ++ toString m ++
    ("ns > allowed ") ++ toString allowed ++ ("ns")

/-- The `for benchmark_key, baseline_ns in benchmarks.items()` loop of
`main`: reads each key's measured mean (propagating exceptions), computes
`allowed_ns = baseline * (1 + thr)` and `slowdown = measured / baseline`
(`ZeroDivisionError` on a zero budget), and accumulates a failure message
whenever `measured > allowed`. -/
def gateLoop (fs : String → EstimatesFile) (root : String) (thr : ℚ) :
    List (String × ℚ) → Except GateErr (List RegCheck × List String)
  | [] => .ok ([], [])
  | (key, b) :: rest => do
    let m ← readCriterionMeanNs fs root key
    if b = 0 then
      .error .zeroDivision
    else
      let allowed : ℚ := b * (1 + thr)
      let c : RegCheck := ⟨key, m, b, allowed, m / b⟩
      let fail : List String :=
        if m > allowed then [budgetMsg key m allowed] else []
      let (cs, fails) ← gateLoop fs root thr rest
      .ok (c :: cs, fail ++ fails)

/-- `main` of the gate script, given the parsed baseline document, the
results root, the threshold and the filesystem: an empty (or missing)
`benchmarks` mapping returns 1 immediately with no checks; otherwise every
key is compared and the return value is 1 iff any failure message was
accumulated. -/
def gateMain (doc : BaselineDoc) (root : String) (thr : ℚ)
    (fs : String → EstimatesFile) : Except GateErr GateRun :=
  let benchmarks := doc.benchmarks.getD []
  if benchmarks.isEmpty then
    .ok ⟨1, [], []⟩
  else do
    let (checks, fails) ← gateLoop fs root thr benchmarks
    .ok ⟨if fails.isEmpty then 0 else 1, checks, fails⟩

/-- Process exit code of the gate script: `sys.exit(main())`, with an
unhandled exception giving process exit code 1. -/
def gateFinalCode : Except GateErr GateRun → Nat
  | .ok r => r.retCode
  | .error _ => 1

/-- C6 -- If the baseline's `benchmarks` mapping is empty or the key is
missing, the gate returns 1 having performed zero comparisons. -/
theorem gate_empty_baseline_code_one (doc : BaselineDoc) (root : String)
    (thr : ℚ) (fs : String → EstimatesFile)
    (h : doc.benchmarks = none ∨ doc.benchmarks = some []) :
    gateMain doc root thr fs = .ok ⟨1, [], []⟩ ∧
      gateFinalCode (gateMain doc root thr fs) = 1 := by
  rcases h with h | h <;> simp [gateMain, h, gateFinalCode]

/-- Witness for C6 at the concrete empty baseline document. -/
theorem gate_empty_baseline_code_one_w :
    gateMain ⟨some []⟩ ("target/criterion") (35/100) (fun _ => .absent)
        = .ok ⟨1, [], []⟩ ∧
      gateFinalCode (gateMain ⟨some []⟩ ("target/criterion") (35/100)
        (fun _ => .absent)) = 1 :=
  gate_empty_baseline_code_one ⟨some []⟩ ("target/criterion") (35/100)
    (fun _ => .absent) (Or.inr rfl)

/-- The measured mean for a key as a total function: the value read by
`readCriterionMeanNs` when it succeeds, 0 otherwise (only used in theorem
statements whose hypotheses guarantee success). -/
def measuredOf (fs : String → EstimatesFile) (root key : String) : ℚ :=
  ((readCriterionMeanNs fs root key).toOption).getD 0

/-- A benchmark key whose derived estimates file is absent or lacks
`mean.point_estimate`: the missing-data condition of the spec. -/
def badDataB (fs : String → EstimatesFile) (root key : String) : Bool :=
  match splitKey key with
  | .error _ => false
  | .ok (g, n) =>
    match fs (estimatesPath root g n) with
    | .absent => true
    | .noPointEstimate => true
    | .withMean _ => false

/-- A baseline entry for which the gate's per-key read succeeds and whose
budget is non-zero (so the slowdown division does not raise). -/
def goodEntryB (fs : String → EstimatesFile) (root : String)
    (p : String × ℚ) : Bool :=
  (match readCriterionMeanNs fs root p.1 with
   | .ok _ => true
   | .error _ => false) && !(decide (p.2 = 0))

/-- The per-key row the gate computes for a baseline entry whose read
succeeds. -/
def gateCheckOf (fs : String → EstimatesFile) (root : String) (thr : ℚ)
    (p : String × ℚ) : RegCheck :=
  ⟨p.1, measuredOf fs root p.1, p.2, p.2 * (1 + thr),
    measuredOf fs root p.1 / p.2⟩

/-- Boolean form of "this entry's measured mean exceeds its allowed
budget". -/
def gateFailP (fs : String → EstimatesFile) (root : String) (thr : ℚ)
    (p : String × ℚ) : Bool :=
  decide (measuredOf fs root p.1 > p.2 * (1 + thr))

theorem readCriterionMeanNs_error_of_badData (fs : String → EstimatesFile)
    (root key : String) (h : badDataB fs root key = true) :
    ∃ e, readCriterionMeanNs fs root key = .error e := by
  unfold badDataB at h
  cases hs : splitKey key with
  | error e => rw [hs] at h; cases h
  | ok gn =>
    obtain ⟨g, n⟩ := gn
    rw [hs] at h
    cases hf : fs (estimatesPath root g n) with
    | absent =>
      exact ⟨.fileNotFound (estimatesPath root g n),
        by simp [readCriterionMeanNs, hs, hf, Bind.bind, Except.bind]⟩
    | noPointEstimate =>
      exact ⟨.invalidFormat (estimatesPath root g n),
        by simp [readCriterionMeanNs, hs, hf, Bind.bind, Except.bind]⟩
    | withMean q => simp [hf] at h

theorem gateLoop_error_of_badData (fs : String → EstimatesFile)
    (root : String) (thr : ℚ) :
    ∀ l : List (String × ℚ), (∃ p ∈ l, badDataB fs root p.1 = true) →
      ∃ e, gateLoop fs root thr l = .error e := by
  intro l
  induction l with
  | nil => rintro ⟨p, hp, -⟩; cases hp
  | cons hd tl ih =>
    rintro ⟨p, hp, hbad⟩
    obtain ⟨key, b⟩ := hd
    rcases List.mem_cons.mp hp with rfl | hmem
    · obtain ⟨e, he⟩ :=
        readCriterionMeanNs_error_of_badData fs root (key, b).1 hbad
      exact ⟨e, by simp [gateLoop, he, Bind.bind, Except.bind]⟩
    · cases hr : readCriterionMeanNs fs root key with
      | error e => exact ⟨e, by simp [gateLoop, hr, Bind.bind, Except.bind]⟩
      | ok m =>
        by_cases hb : b = 0
        · exact ⟨.zeroDivision,
            by simp [gateLoop, hr, hb, Bind.bind, Except.bind]⟩
        · obtain ⟨e, he⟩ := ih ⟨p, hmem, hbad⟩
          exact ⟨e, by simp [gateLoop, hr, hb, he, Bind.bind, Except.bind]⟩

/-- C4 -- A missing or malformed measured-results document for any baseline
key makes the gate die with a propagated error; its process exit code is
then 1, never 0. -/
theorem gate_missing_data_never_code_zero (doc : BaselineDoc) (root : String)
    (thr : ℚ) (fs : String → EstimatesFile) (l : List (String × ℚ))
    (hdoc : doc.benchmarks = some l)
    (hbad : ∃ p ∈ l, badDataB fs root p.1 = true) :
    (∃ e, gateMain doc root thr fs = .error e) ∧
      gateFinalCode (gateMain doc root thr fs) = 1 := by
  obtain ⟨e, he⟩ := gateLoop_error_of_badData fs root thr l hbad
  have hne : l.isEmpty = false := by
    obtain ⟨p, hp, -⟩ := hbad
    cases l with
    | nil => cases hp
    | cons a t => rfl
  constructor
  · exact ⟨e, by simp [gateMain, hdoc, hne, he, Bind.bind, Except.bind]⟩
  · simp [gateMain, hdoc, hne, he, gateFinalCode, Bind.bind, Except.bind]

/-- Filesystem with no criterion output at all. -/
def gateBadFs : String → EstimatesFile := fun _ => .absent

/-- Witness for C4: baseline key `g/b` with an absent estimates file. -/
theorem gate_missing_data_never_code_zero_w :
    (∃ e, gateMain ⟨some [(("g/b"), (1000000 : ℚ))]⟩ ("target/criterion")
        (35/100) gateBadFs = .error e) ∧
      gateFinalCode (gateMain ⟨some [(("g/b"), (1000000 : ℚ))]⟩
        ("target/criterion") (35/100) gateBadFs) = 1 :=
  gate_missing_data_never_code_zero _ _ _ _ _ rfl (by decide)

theorem gateLoop_ok_of_good (fs : String → EstimatesFile) (root : String)
    (thr : ℚ) :
    ∀ l : List (String × ℚ), (∀ p ∈ l, goodEntryB fs root p = true) →
      gateLoop fs root thr l =
        .ok (l.map (gateCheckOf fs root thr),
          (l.filter (gateFailP fs root thr)).map
            (fun p => budgetMsg p.1 (measuredOf fs root p.1)
              (p.2 * (1 + thr)))) := by
  intro l
  induction l with
  | nil => intro _; rfl
  | cons hd tl ih =>
    intro hgood
    obtain ⟨key, b⟩ := hd
    have hh := hgood (key, b) (List.mem_cons_self _ _)
    cases hr : readCriterionMeanNs fs root key with
    | error e => simp [goodEntryB, hr] at hh
    | ok m =>
      have hb : ¬ (b = 0) := by
        simp only [goodEntryB, hr, Bool.and_eq_true, Bool.not_eq_true',
          decide_eq_false_iff_not] at hh
        exact hh.2
      have hm : measuredOf fs root key = m := by
        simp [measuredOf, hr, Except.toOption]
      have htl := ih (fun p hp => hgood p (List.mem_cons_of_mem _ hp))
      by_cases hgt : m > b * (1 + thr)
      · simp [gateLoop, hr, hb, htl, gateCheckOf, gateFailP, hm, hgt,
          Bind.bind, Except.bind]
      · simp [gateLoop, hr, hb, htl, gateCheckOf, gateFailP, hm, hgt,
          Bind.bind, Except.bind]

/-- C3 -- With a non-empty baseline whose every key reads a valid measured
mean (and has a non-zero budget), the gate computes
`allowed = budget * (1 + thr)` for every key, and returns 1 iff at least
one key's measured mean strictly exceeds its allowed budget (so a measured
mean exactly equal to the allowed budget passes). -/
theorem gate_allowed_and_failure_iff (doc : BaselineDoc) (root : String)
    (thr : ℚ) (fs : String → EstimatesFile) (l : List (String × ℚ))
    (hdoc : doc.benchmarks = some l) (hne : l ≠ [])
    (hgood : ∀ p ∈ l, goodEntryB fs root p = true) :
    ∃ r, gateMain doc root thr fs = .ok r ∧
      r.checks = l.map (gateCheckOf fs root thr) ∧
      (∀ c ∈ r.checks, c.allowed = c.baseline * (1 + thr)) ∧
      (r.retCode = 1 ↔ ∃ p ∈ l, measuredOf fs root p.1 > p.2 * (1 + thr)) ∧
      (r.retCode = 0 ↔ ∀ p ∈ l, measuredOf fs root p.1 ≤ p.2 * (1 + thr)) ∧
      gateFinalCode (gateMain doc root thr fs) = r.retCode := by
  have hloop := gateLoop_ok_of_good fs root thr l hgood
  have hE : l.isEmpty = false := by
    cases l with
    | nil => exact absurd rfl hne
    | cons a t => rfl
  have hmain : gateMain doc root thr fs =
      .ok ⟨if ((l.filter (gateFailP fs root thr)).map
              (fun p => budgetMsg p.1 (measuredOf fs root p.1)
                (p.2 * (1 + thr)))).isEmpty then 0 else 1,
            l.map (gateCheckOf fs root thr),
            (l.filter (gateFailP fs root thr)).map
              (fun p => budgetMsg p.1 (measuredOf fs root p.1)
                (p.2 * (1 + thr)))⟩ := by
    simp [gateMain, hdoc, hE, hloop, Bind.bind, Except.bind]
  refine ⟨_, hmain, rfl, ?_, ?_, ?_, ?_⟩
  · intro c hc
    obtain ⟨p, hp, rfl⟩ := List.mem_map.mp hc
    rfl
  · by_cases hf : l.filter (gateFailP fs root thr) = []
    · have hnone : ¬ ∃ p ∈ l, measuredOf fs root p.1 > p.2 * (1 + thr) := by
        rintro ⟨p, hp, hgt⟩
        have := List.filter_eq_nil_iff.mp hf p hp
        exact this (by simpa [gateFailP] using hgt)
      simp [hf, hnone]
    · have hsome : ∃ p ∈ l, measuredOf fs root p.1 > p.2 * (1 + thr) := by
        obtain ⟨p, hp⟩ := List.exists_mem_of_ne_nil _ hf
        refine ⟨p, List.mem_of_mem_filter hp, ?_⟩
        have := List.of_mem_filter hp
        simpa [gateFailP] using this
      simp [hf, hsome]
  · by_cases hf : l.filter (gateFailP fs root thr) = []
    · have hall : ∀ p ∈ l, measuredOf fs root p.1 ≤ p.2 * (1 + thr) := by
        intro p hp
        have := List.filter_eq_nil_iff.mp hf p hp
        have hnot : ¬ measuredOf fs root p.1 > p.2 * (1 + thr) := by
          simpa [gateFailP] using this
        exact le_of_not_lt hnot
      simp [hf]
      intro a b hab
      exact hall (a, b) hab
    · have hsome : ∃ p ∈ l, measuredOf fs root p.1 > p.2 * (1 + thr) := by
        obtain ⟨p, hp⟩ := List.exists_mem_of_ne_nil _ hf
        refine ⟨p, List.mem_of_mem_filter hp, ?_⟩
        have := List.of_mem_filter hp
        simpa [gateFailP] using this
      obtain ⟨p, hp, hgt⟩ := hsome
      have : ¬ ∀ q ∈ l, measuredOf fs root q.1 ≤ q.2 * (1 + thr) := by
        intro hall
        exact absurd hgt (not_lt.mpr (hall p hp))
      simp [hf, this]
      exact ⟨p.1, p.2, by simpa using hp, hgt⟩
  · rw [hmain]; rfl

/-- Filesystem holding exactly the criterion output for key `g/b`, with a
measured mean equal to the allowed budget. -/
def gateGoodFs : String → EstimatesFile := fun p =>
  if p = ("target/criterion/g/b/new/estimates.json") then .withMean 1350000
  else .absent

/-- Witness for C3: baseline `g/b ↦ 1000000`, threshold `0.35`, measured
mean `1350000 = allowed`, so the gate returns 0 (equality passes). -/
theorem gate_allowed_and_failure_iff_w :
    ∃ r, gateMain ⟨some [(("g/b"), (1000000 : ℚ))]⟩ ("target/criterion")
        (35/100) gateGoodFs = .ok r ∧ r.retCode = 0 := by
  obtain ⟨r, hmain, -, -, -, h0, -⟩ :=
    gate_allowed_and_failure_iff ⟨some [(("g/b"), (1000000 : ℚ))]⟩
      ("target/criterion") (35/100) gateGoodFs [(("g/b"), (1000000 : ℚ))]
      rfl (by simp) (by decide)
  refine ⟨r, hmain, h0.mpr ?_⟩
  intro p hp
  have hpe : p = (("g/b"), (1000000 : ℚ)) := by simpa using hp
  subst hpe
  have hm : measuredOf gateGoodFs ("target/criterion") ("g/b") = 1350000 := by
    decide
  simp only [hm]
  norm_num

/-! ## Corpus validator: `tests/test_all_nr_files.py` -/

/-- `run_neurc_build`: success iff the build process completed with exit
code 0 (stderr as detail); a timeout gives `(False, "Timeout")` and any
other exception gives `(False, str(e))`. -/
def runNeurcBuild : ProcOutcome → Bool × String
  | .completed c e => (decide (c = 0), e)
  | .timedOut => (false, ("Timeout"))
  | .raised m => (false, m)

/-- What the corpus validator's directory walk sees: whether the directory
exists and which matching `*.nr` file names it contains. -/
structure DirListing where
  dirExists : Bool
  files : List String
deriving DecidableEq, Repr

/-- Insert a file name into a lexicographically sorted list. -/
def insertSorted (x : String) : List String → List String
  | [] => [x]
  | y :: ys => if x ≤ y then x :: y :: ys else y :: insertSorted x ys

/-- `sorted(nr_files)`: lexicographic insertion sort. -/
def sortedFiles : List String → List String
  | [] => []
  | x :: xs => insertSorted x (sortedFiles xs)

/-- The triple `test_directory` returns: success count, total matching file
count, and the failure entries in iteration order. -/
structure CorpusReport where
  success : Nat
  total : Nat
  failures : List (String × String)
deriving DecidableEq, Repr

/-- The `for nr_file in sorted(nr_files)` loop: count a success when the
build succeeds, otherwise append `(file_name, error)` to the failures. -/
def corpusLoop (run : String → ProcOutcome) :
    List String → Nat × List (String × String)
  | [] => (0, [])
  | f :: rest =>
    let (ok, err) := runNeurcBuild (run f)
    let (s, fails) := corpusLoop run rest
    if ok then (s + 1, fails) else (s, (f, err) :: fails)

/-- `test_directory`: a missing directory or one with no matching files
reports `(0, 0, [])`; otherwise every file is built in sorted order. -/
def test_directory (d : DirListing) (run : String → ProcOutcome) :
    CorpusReport :=
  if d.dirExists = false then ⟨0, 0, []⟩
  else if d.files = [] then ⟨0, 0, []⟩
  else
    let r := corpusLoop run (sortedFiles d.files)
    ⟨r.1, d.files.length, r.2⟩

/-- Ways the corpus script can die: referencing `success_rate` when no file
was discovered raises `NameError`. -/
inductive CorpusErr where
  | nameErr
deriving DecidableEq, Repr

/-- Environment of one corpus run: the two tested directories and the build
outcome of each file in each. -/
structure CorpusEnv where
  debugDir : DirListing
  examplesDir : DirListing
  runDebug : String → ProcOutcome
  runExamples : String → ProcOutcome

/-- `main` of `test_all_nr_files.py`: validates `debug/` and `examples/`,
sums the totals, and calls `sys.exit(0 if success_rate >= 98.0 else 1)`;
`success_rate` is only assigned under `if total_files > 0`, so a run that
discovered zero files dies with `NameError` instead of exiting. -/
def corpusMain (env : CorpusEnv) : Except CorpusErr Nat :=
  let d := test_directory env.debugDir env.runDebug
  let e := test_directory env.examplesDir env.runExamples
  let totalSuccess := d.success + e.success
  let totalFiles := d.total + e.total
  if 0 < totalFiles then
    let rate : ℚ := (totalSuccess : ℚ) / (totalFiles : ℚ) * 100
    .ok (if rate ≥ 98 then 0 else 1)
  else
    .error .nameErr

/-- Process exit code of the corpus script (unhandled exception ⇒ 1). -/
def corpusFinalCode : Except CorpusErr Nat → Nat
  | .ok n => n
  | .error _ => 1

/-- C5 -- When both tested directories are missing or contain no matching
files, the corpus run dies with `NameError`: it is not treated as a 100%
success and the process exit code is 1, not 0. -/
theorem corpus_zero_files_not_success (env : CorpusEnv)
    (hd : env.debugDir.dirExists = false ∨ env.debugDir.files = [])
    (he : env.examplesDir.dirExists = false ∨ env.examplesDir.files = []) :
    corpusMain env = .error .nameErr ∧
      corpusFinalCode (corpusMain env) = 1 := by
  have h1 : test_directory env.debugDir env.runDebug = ⟨0, 0, []⟩ := by
    rcases hd with h | h <;> simp [test_directory, h]
  have h2 : test_directory env.examplesDir env.runExamples = ⟨0, 0, []⟩ := by
    rcases he with h | h <;> simp [test_directory, h]
  constructor
  · simp [corpusMain, h1, h2]
  · simp [corpusMain, h1, h2, corpusFinalCode]

/-- Witness for C5: both directories absent. -/
theorem corpus_zero_files_not_success_w :
    corpusMain ⟨⟨false, []⟩, ⟨false, []⟩, fun _ => .timedOut,
        fun _ => .timedOut⟩ = .error .nameErr ∧
      corpusFinalCode (corpusMain ⟨⟨false, []⟩, ⟨false, []⟩,
        fun _ => .timedOut, fun _ => .timedOut⟩) = 1 :=
  corpus_zero_files_not_success _ (Or.inl rfl) (Or.inl rfl)

theorem corpusLoop_counts_and_causes (run : String → ProcOutcome) :
    ∀ fl : List String,
      (corpusLoop run fl).1 + (corpusLoop run fl).2.length = fl.length ∧
      ∀ p ∈ (corpusLoop run fl).2,
        (∃ c e, run p.1 = .completed c e ∧ c ≠ 0) ∨ run p.1 = .timedOut ∨
          (∃ m, run p.1 = .raised m) := by
  intro fl
  induction fl with
  | nil => exact ⟨rfl, by intro p hp; cases hp⟩
  | cons f rest ih =>
    obtain ⟨ihc, ihf⟩ := ih
    cases hr : run f with
    | completed c e =>
      by_cases hc : c = 0
      · constructor
        · simp [corpusLoop, runNeurcBuild, hr, hc]; omega
        · intro p hp
          simp only [corpusLoop, runNeurcBuild, hr, hc] at hp
          simp at hp
          exact ihf p hp
      · constructor
        · simp [corpusLoop, runNeurcBuild, hr, hc]; omega
        · intro p hp
          simp only [corpusLoop, runNeurcBuild, hr, hc] at hp
          simp [List.mem_cons] at hp
          rcases hp with rfl | hp
          · exact Or.inl ⟨c, e, by simpa using hr, hc⟩
          · exact ihf p hp
    | timedOut =>
      constructor
      · simp [corpusLoop, runNeurcBuild, hr]; omega
      · intro p hp
        simp only [corpusLoop, runNeurcBuild, hr] at hp
        simp [List.mem_cons] at hp
        rcases hp with rfl | hp
        · exact Or.inr (Or.inl (by simpa using hr))
        · exact ihf p hp
    | raised m =>
      constructor
      · simp [corpusLoop, runNeurcBuild, hr]; omega
      · intro p hp
        simp only [corpusLoop, runNeurcBuild, hr] at hp
        simp [List.mem_cons] at hp
        rcases hp with rfl | hp
        · exact Or.inr (Or.inr ⟨m, by simpa using hr⟩)
        · exact ihf p hp

theorem insertSorted_length (x : String) (l : List String) :
    (insertSorted x l).length = l.length + 1 := by
  induction l with
  | nil => rfl
  | cons y ys ih =>
    by_cases h : x ≤ y
    · simp [insertSorted, h]
    · simp [insertSorted, h, ih]

theorem sortedFiles_length (l : List String) :
    (sortedFiles l).length = l.length := by
  induction l with
  | nil => rfl
  | cons x xs ih => simp [sortedFiles, insertSorted_length, ih]

/-- C9 (amended) -- For every validated directory,
`success + failures.length = total`, and every failure entry corresponds to
a file whose build exited non-zero, timed out, or whose invocation raised
an exception (e.g. the compiler binary being absent). -/
theorem corpus_counts_and_causes (d : DirListing)
    (run : String → ProcOutcome) :
    (test_directory d run).success +
        (test_directory d run).failures.length =
      (test_directory d run).total ∧
    ∀ p ∈ (test_directory d run).failures,
      (∃ c e, run p.1 = .completed c e ∧ c ≠ 0) ∨ run p.1 = .timedOut ∨
        (∃ m, run p.1 = .raised m) := by
  by_cases hex : d.dirExists = false
  · constructor
    · simp [test_directory, hex]
    · intro p hp
      simp [test_directory, hex] at hp
  · have hex' : d.dirExists = true := by
      cases hb : d.dirExists
      · exact absurd hb hex
      · rfl
    by_cases hni : d.files = []
    · constructor
      · simp [test_directory, hex', hni]
      · intro p hp
        simp [test_directory, hex', hni] at hp
    · obtain ⟨hc, hf⟩ := corpusLoop_counts_and_causes run (sortedFiles d.files)
      have hlen : (corpusLoop run (sortedFiles d.files)).1 +
          (corpusLoop run (sortedFiles d.files)).2.length =
            d.files.length := by
        rw [← sortedFiles_length d.files]; exact hc
      constructor
      · simp [test_directory, hex', hni, hlen]
      · intro p hp
        simp [test_directory, hex', hni] at hp
        exact hf p hp

/-- Directory with one discovered file. -/
def cexDir : DirListing := ⟨true, [("a.nr")]⟩

/-- Build invocation that raises (the compiler binary is absent), as in the
`except Exception` branch of `run_neurc_build`. -/
def cexRun : String → ProcOutcome := fun _ => .raised ("neurc missing")

/-- Counterexample for C9 as stated: with one file whose build invocation
raises, the failure entry corresponds neither to a non-zero exit code nor
to a timeout. -/
theorem corpus_failure_cause_cex :
    ¬ ∀ p ∈ (test_directory cexDir cexRun).failures,
        ((∃ c e, cexRun p.1 = .completed c e ∧ c ≠ 0) ∨
          cexRun p.1 = .timedOut) := by
  intro h
  have hmem : (("a.nr"), ("neurc missing")) ∈
      (test_directory cexDir cexRun).failures := by decide
  rcases h _ hmem with ⟨c, e, hce, -⟩ | ht
  · simp [cexRun] at hce
  · simp [cexRun] at ht

/-- Witness for C9 (amended) at the concrete one-file directory. -/
theorem corpus_counts_and_causes_w :
    (test_directory cexDir cexRun).success +
        (test_directory cexDir cexRun).failures.length =
      (test_directory cexDir cexRun).total ∧
      ((∃ c e, cexRun ("a.nr") = .completed c e ∧ c ≠ 0) ∨
        cexRun ("a.nr") = .timedOut ∨
          (∃ m, cexRun ("a.nr") = .raised m)) :=
  ⟨(corpus_counts_and_causes cexDir cexRun).1,
    (corpus_counts_and_causes cexDir cexRun).2 (("a.nr"), ("neurc missing"))
      (by decide)⟩

/-! ## Feature harness: `tests/test_compilation_features.py` -/

/-- Environment of one `compile_and_run_code` call: whether opening the
scratch temporary file succeeds, whether writing the snippet into it
succeeds (the exception text otherwise), the build subprocess outcome,
whether a file exists at the scratch path with `.nr` replaced by `.exe`
after the build, and the outcome of executing that file. -/
structure FeatureEnv where
  openOk : Bool
  writeOk : Bool
  errMsg : String
  buildOutcome : ProcOutcome
  exeProduced : Bool
  runOutcome : ProcOutcome
deriving DecidableEq, Repr

/-- Result of one harness case: the `(success, message)` pair
`compile_and_run_code` returns, plus which scratch artifacts remain on
disk after its `finally` cleanup ran. -/
structure FeatureCaseRun where
  passed : Bool
  detail : String
  scratchLeft : Bool
  exeLeft : Bool
deriving DecidableEq, Repr

/-- `compile_and_run_code`: writes the snippet to a scratch `.nr` file,
builds it, and when an expected exit code is given and
`os.path.exists(exe_file)` holds, runs the executable and compares exit
codes.  All exceptions are caught and returned as `(False, str(e))`
(exception texts approximated by fixed strings); the `finally` block
deletes the scratch file and the executable only when `temp_file` was
assigned, which happens after the write — deletions themselves are
modelled as succeeding.  Note the source skips the run and falls through
to `(True, "Success")` when the executable is absent. -/
def compile_and_run_code (env : FeatureEnv) (expected : Option Int) :
    FeatureCaseRun :=
  if env.openOk = false then
    ⟨false, env.errMsg, false, false⟩
  else if env.writeOk = false then
    ⟨false, env.errMsg, true, false⟩
  else
    match env.buildOutcome with
    | .raised m => ⟨false, m, false, false⟩
    | .timedOut => ⟨false, ("TimeoutExpired"), false, false⟩
    | .completed c stderrText =>
      if c ≠ 0 then ⟨false, ("Build failed: ") ++ stderrText, false, false⟩
      else
        match expected with
        | none => ⟨true, ("Success"), false, false⟩
        | some exp =>
          if env.exeProduced = false then
            ⟨true, ("Success"), false, false⟩
          else
            match env.runOutcome with
            | .raised m => ⟨false, m, false, false⟩
            | .timedOut => ⟨false, ("TimeoutExpired"), false, false⟩
            | .completed rc _ =>
              if rc ≠ exp then
                ⟨false, ("Expected exit code ") ++ toString exp ++
                  (", got ") ++ toString rc, false, false⟩
              else ⟨true, ("Success"), false, false⟩

/-- C1 -- With a successful build, an expected exit code of 42 and no file
at the `.exe` path, `compile_and_run_code` returns `(True, "Success")`:
the absent executable is silently treated as a pass, not as an
infrastructure failure. -/
theorem featureHarness_missing_exe_reports_pass :
    compile_and_run_code
        ⟨true, true, (""), .completed 0 (""), false, .timedOut⟩ (some 42) =
      ⟨true, ("Success"), false, false⟩ := by
  rfl

/-- Counterexample for C7 as stated: when the write of the snippet raises
(e.g. the disk is full), `temp_file` is never assigned, the cleanup removes
nothing and the scratch source file remains on disk. -/
theorem featureHarness_cleanup_cex :
    ¬ ((compile_and_run_code
          ⟨true, false, ("disk full"), .completed 0 (""), false, .timedOut⟩
          (some 1)).scratchLeft = false) := by
  decide

/-- C7 (amended) -- Provided the initial write of the snippet into the
scratch file succeeded (so `temp_file` was assigned), no scratch source
file and no compiled executable remains after the case, whether it passed,
failed, or an exception was raised internally. -/
theorem featureHarness_cleanup_after_write (env : FeatureEnv)
    (expected : Option Int) (h : env.writeOk = true) :
    (compile_and_run_code env expected).scratchLeft = false ∧
      (compile_and_run_code env expected).exeLeft = false := by
  unfold compile_and_run_code
  rw [h]
  repeat' split
  all_goals simp_all

/-- Witness for C7 (amended): a fully successful case. -/
theorem featureHarness_cleanup_after_write_w :
    (compile_and_run_code ⟨true, true, (""), .completed 0 (""), true,
          .completed 42 ("")⟩ (some 42)).scratchLeft = false ∧
      (compile_and_run_code ⟨true, true, (""), .completed 0 (""), true,
          .completed 42 ("")⟩ (some 42)).exeLeft = false :=
  featureHarness_cleanup_after_write _ _ rfl

/-- Expected exit codes of the eight cases of `test_basic_features`. -/
def basicTests : List (Option Int) :=
  [some 42, some 10, some 11, some 1, some 1, some 3, some 12, some 12]

/-- Expected exit codes of the eight cases of `test_advanced_features`. -/
def advancedTests : List (Option Int) :=
  [some 8, some 1, some 1, some 8, some 12, some 120, some 21, some 15]

/-- The eight build-only cases of `test_compilation_only`. -/
def compileOnlyTests : List (Option Int) :=
  [none, none, none, none, none, none, none, none]

/-- Expected exit codes of the four cases of `test_phase_1_features`. -/
def phase1Tests : List (Option Int) :=
  [some 42, some 8, some 10, some 6]

/-- The per-suite loop: evaluate each case with `compile_and_run_code`
under its own environment (indexed by position) and return
`(passed, total)`. -/
def runFeatureSuite (envs : Nat → FeatureEnv) :
    Nat → List (Option Int) → Nat × Nat
  | _, [] => (0, 0)
  | i, e :: rest =>
    let r := compile_and_run_code (envs i) e
    let (p, t) := runFeatureSuite envs (i + 1) rest
    (if r.passed then p + 1 else p, t + 1)

/-- `main` of `test_compilation_features.py`: runs the four suites, prints
the per-suite and total tallies, and — when any test was counted — the
success rate with quality/status lines chosen by rate thresholds.  The
function body contains no `return` statement, so its value is `None`
(modelled as the `Option Int` component); printed lines are collected with
numeric formatting approximated by `toString`. -/
def featureMain (e1 e2 e3 e4 : Nat → FeatureEnv) : List String × Option Int :=
  let b := runFeatureSuite e1 0 basicTests
  let a := runFeatureSuite e2 0 advancedTests
  let c := runFeatureSuite e3 0 compileOnlyTests
  let p := runFeatureSuite e4 0 phase1Tests
  let totalPassed := b.1 + a.1 + c.1 + p.1
  let totalTests := b.2 + a.2 + c.2 + p.2
  let summary : List String :=
    [("Basic features: ") ++ toString b.1 ++ ("/") ++ toString b.2,
     ("Advanced features: ") ++ toString a.1 ++ ("/") ++ toString a.2,
     ("Compilation tests: ") ++ toString c.1 ++ ("/") ++ toString c.2,
     ("Phase 1 features: ") ++ toString p.1 ++ ("/") ++ toString p.2,
     ("Total: ") ++ toString totalPassed ++ ("/") ++ toString totalTests]
  if 0 < totalTests then
    let rate : ℚ := (totalPassed : ℚ) / (totalTests : ℚ) * 100
    let quality : String :=
      if rate ≥ 90 then
        ("[EXCELLENT] Language features working well! Phase 1 Complete")
      else if rate ≥ 75 then ("[GOOD] Most language features working")
      else ("[NEEDS WORK] Some language features need attention")
    let status : String :=
      if rate ≥ 95 then ("[STATUS] Ready for Phase 2 development!")
      else if rate ≥ 85 then
        ("[STATUS] Phase 1 mostly complete, minor fixes needed")
      else ("[STATUS] Phase 1 needs more work before Phase 2")
    (summary ++ [quality, status], none)
  else
    (summary, none)

/-- `sys.exit(0)` when `main` returned `None`, `sys.exit(exit_code)`
otherwise — the `__main__` block of the feature suite. -/
def featureScriptCode : Option Int → Int
  | none => 0
  | some c => c

/-- C2 -- Whatever the individual cases do, `main` of the feature suite
returns `None` (it has no return statement), and the `__main__` block maps
that to process exit code 0: feature-case failures never yield a non-zero
suite exit code. -/
theorem feature_suite_code_always_zero (e1 e2 e3 e4 : Nat → FeatureEnv) :
    (featureMain e1 e2 e3 e4).2 = none ∧
      featureScriptCode (featureMain e1 e2 e3 e4).2 = 0 := by
  have h : (featureMain e1 e2 e3 e4).2 = none := by
    unfold featureMain
    dsimp only
    split <;> rfl
  exact ⟨h, by rw [h]; rfl⟩

/-! ## Release smoke tester: `tools/run_release_smoke_tests.py` -/

/-- Outcome of one `run_command` invocation (no timeout is passed, so only
completion or a raised exception can occur). -/
inductive CmdOutcome where
  | completed (code : Int) (outText errText : String)
  | raised (msg : String)
deriving DecidableEq, Repr

/-- Environment of a smoke-test run: whether the resolved `--neurc` path
exists, and the outcome of each example's compile command and of running
its produced binary, indexed by example file name. -/
structure SmokeEnv where
  neurcExists : Bool
  compileOutcome : String → CmdOutcome
  runOutcome : String → CmdOutcome

/-- The fixed example list of the script: file name and expected exit
code. -/
def smokeExamples : List (String × Int) :=
  [(("milestone.nr"), 8), (("factorial.nr"), 120)]

/-- An unhandled exception killing the smoke-test script. -/
inductive SmokeErr where
  | uncaught (msg : String)
deriving DecidableEq, Repr

/-- The `for example_name, expected_exit in examples` loop: a non-zero
compile exit returns 1 at once, as does a run exit different from the
expected one; `run_command` has no exception handling, so a raising
invocation kills the script.  Alongside the `return` value, the names of
the examples attempted are collected in order. -/
def smokeLoop (env : SmokeEnv) :
    List (String × Int) → Except SmokeErr (Int × List String)
  | [] => .ok (0, [])
  | (name, exp) :: rest =>
    match env.compileOutcome name with
    | .raised m => .error (.uncaught m)
    | .completed c _ _ =>
      if c ≠ 0 then .ok (1, [name])
      else
        match env.runOutcome name with
        | .raised m => .error (.uncaught m)
        | .completed rc _ _ =>
          if rc ≠ exp then .ok (1, [name])
          else do
            let (r, att) ← smokeLoop env rest
            .ok (r, name :: att)

/-- `main` of the smoke-test script: returns 1 before attempting any
example when the compiler path does not exist, otherwise runs the fixed
example list. -/
def smokeMain (env : SmokeEnv) : Except SmokeErr (Int × List String) :=
  if env.neurcExists = false then .ok (1, [])
  else smokeLoop env smokeExamples

/-- The compile step exited non-zero. -/
def compileFailed : CmdOutcome → Bool
  | .completed c _ _ => decide (c ≠ 0)
  | .raised _ => false

/-- The compile step exited zero. -/
def compileOkB : CmdOutcome → Bool
  | .completed c _ _ => decide (c = 0)
  | .raised _ => false

/-- The produced binary ran and exited with the expected code. -/
def ranWithB (o : CmdOutcome) (exp : Int) : Bool :=
  match o with
  | .completed rc _ _ => decide (rc = exp)
  | .raised _ => false

/-- The produced binary ran and exited with a different code than
expected. -/
def ranWrongB (o : CmdOutcome) (exp : Int) : Bool :=
  match o with
  | .completed rc _ _ => decide (rc ≠ exp)
  | .raised _ => false

/-- An example that compiles and produces the expected exit code. -/
def exampleGoodB (env : SmokeEnv) (p : String × Int) : Bool :=
  compileOkB (env.compileOutcome p.1) && ranWithB (env.runOutcome p.1) p.2

/-- An example whose compile exits non-zero, or which compiles but whose
binary exits with an unexpected code. -/
def exampleBadB (env : SmokeEnv) (p : String × Int) : Bool :=
  compileFailed (env.compileOutcome p.1) ||
    (compileOkB (env.compileOutcome p.1) &&
      ranWrongB (env.runOutcome p.1) p.2)

/-- C8 -- A missing compiler path returns 1 before any example; the first
failing example (non-zero compile exit, or binary exit code differing from
the expected value) makes the run return 1 immediately with no later
example attempted; when every example compiles and matches, the run
returns 0. -/
theorem smoke_fail_fast_codes (env : SmokeEnv) :
    (env.neurcExists = false → smokeMain env = .ok (1, [])) ∧
    (env.neurcExists = true →
      (exampleBadB env (("milestone.nr"), 8) = true →
        smokeMain env = .ok (1, [("milestone.nr")])) ∧
      (exampleGoodB env (("milestone.nr"), 8) = true →
        exampleBadB env (("factorial.nr"), 120) = true →
          smokeMain env = .ok (1, [("milestone.nr"), ("factorial.nr")])) ∧
      ((∀ p ∈ smokeExamples, exampleGoodB env p = true) →
        smokeMain env = .ok (0, [("milestone.nr"), ("factorial.nr")]))) := by
  refine ⟨fun h => by simp [smokeMain, h], fun h => ⟨?_, ?_, ?_⟩⟩
  · intro hbad
    cases hc : env.compileOutcome ("milestone.nr") with
    | raised m =>
      simp [exampleBadB, compileFailed, compileOkB, hc] at hbad
    | completed c o e =>
      simp [exampleBadB, compileFailed, compileOkB, hc] at hbad
      rcases hbad with hbad | ⟨hc0, hw⟩
      · simp [smokeMain, h, smokeLoop, smokeExamples, hc, hbad]
      · cases hrn : env.runOutcome ("milestone.nr") with
        | raised m => rw [hrn] at hw; simp [ranWrongB] at hw
        | completed rc o2 e2 =>
          rw [hrn] at hw; simp [ranWrongB] at hw
          simp [smokeMain, h, smokeLoop, smokeExamples, hc, hc0, hrn, hw]
  · intro hgood hbad
    cases hc : env.compileOutcome ("milestone.nr") with
    | raised m => simp [exampleGoodB, compileOkB, hc] at hgood
    | completed c o e =>
      simp [exampleGoodB, compileOkB, hc] at hgood
      obtain ⟨hc0, hr⟩ := hgood
      cases hrn : env.runOutcome ("milestone.nr") with
      | raised m => rw [hrn] at hr; simp [ranWithB] at hr
      | completed rc o2 e2 =>
        rw [hrn] at hr; simp [ranWithB] at hr
        cases hc2 : env.compileOutcome ("factorial.nr") with
        | raised m =>
          simp [exampleBadB, compileFailed, compileOkB, hc2] at hbad
        | completed c2 o3 e3 =>
          simp [exampleBadB, compileFailed, compileOkB, hc2] at hbad
          rcases hbad with hbad | ⟨hc20, hw⟩
          · simp [smokeMain, h, smokeLoop, smokeExamples, hc, hc0, hrn, hr,
              hc2, hbad, Bind.bind, Except.bind]
          · cases hrn2 : env.runOutcome ("factorial.nr") with
            | raised m => rw [hrn2] at hw; simp [ranWrongB] at hw
            | completed rc2 o4 e4 =>
              rw [hrn2] at hw; simp [ranWrongB] at hw
              simp [smokeMain, h, smokeLoop, smokeExamples, hc, hc0, hrn, hr,
                hc2, hc20, hrn2, hw, Bind.bind, Except.bind]
  · intro hgood
    have h1 := hgood (("milestone.nr"), 8) (by simp [smokeExamples])
    have h2 := hgood (("factorial.nr"), 120) (by simp [smokeExamples])
    cases hc : env.compileOutcome ("milestone.nr") with
    | raised m => simp [exampleGoodB, compileOkB, hc] at h1
    | completed c o e =>
      simp [exampleGoodB, compileOkB, hc] at h1
      obtain ⟨hc0, hr⟩ := h1
      cases hrn : env.runOutcome ("milestone.nr") with
      | raised m => rw [hrn] at hr; simp [ranWithB] at hr
      | completed rc o2 e2 =>
        rw [hrn] at hr; simp [ranWithB] at hr
        cases hc2 : env.compileOutcome ("factorial.nr") with
        | raised m => simp [exampleGoodB, compileOkB, hc2] at h2
        | completed c2 o3 e3 =>
          simp [exampleGoodB, compileOkB, hc2] at h2
          obtain ⟨hc20, hr2⟩ := h2
          cases hrn2 : env.runOutcome ("factorial.nr") with
          | raised m => rw [hrn2] at hr2; simp [ranWithB] at hr2
          | completed rc2 o4 e4 =>
            rw [hrn2] at hr2; simp [ranWithB] at hr2
            simp [smokeMain, h, smokeLoop, smokeExamples, hc, hc0, hrn, hr,
              hc2, hc20, hrn2, hr2, Bind.bind, Except.bind]

/-- Environment in which both smoke examples compile and run with their
expected exit codes. -/
def smokeGoodEnv : SmokeEnv :=
  ⟨true, fun _ => .completed 0 ("") (""),
    fun n => if n = ("milestone.nr") then .completed 8 ("") ("")
      else .completed 120 ("") ("")⟩

/-- Witness for C8: the all-good run returns 0 after attempting both
examples. -/
theorem smoke_fail_fast_codes_w :
    smokeMain smokeGoodEnv = .ok (0, [("milestone.nr"), ("factorial.nr")]) :=
  ((smoke_fail_fast_codes smokeGoodEnv).2 rfl).2.2 (by decide)

/-! ## Orchestrator: `tests/run_all_tests.py` -/

/-- Outcome of spawning one suite script with a 300-second timeout. -/
inductive SuiteOutcome where
  | completed (code : Int) (outText errText : String)
  | timedOut
  | raised (msg : String)
deriving DecidableEq, Repr

/-- What the orchestrator finds for one suite script: the file is missing,
or it was spawned with the given process outcome. -/
inductive ScriptFile where
  | missing
  | present (o : SuiteOutcome)
deriving DecidableEq, Repr

/-- The Python tuple `run_test_script` returns: a 2-tuple in the
missing-script branch, a 3-tuple on every other path. -/
inductive PyRet where
  | pair (ok : Bool) (msg : String)
  | triple (ok : Bool) (outText errText : String)
deriving DecidableEq, Repr

/-- `run_test_script`: `(False, "... not found")` for a missing script
(note: only two components), otherwise `(returncode == 0, stdout, stderr)`
with timeout and exception branches mapped to failed triples. -/
def run_test_script (name : String) : ScriptFile → PyRet
  | .missing => .pair false (("Test script ") ++ name ++ (" not found"))
  | .present (.completed c o e) => .triple (decide (c = 0)) o e
  | .present .timedOut => .triple false ("") (("Test timed out"))
  | .present (.raised m) => .triple false ("") m

/-- The fixed `test_scripts` list: script file name and description. -/
def orchScripts : List (String × String) :=
  [(("test_all_nr_files.py"), ("File Compilation Tests")),
   (("test_compilation_features.py"), ("Language Feature Tests"))]

/-- The orchestrator dies when `success, stdout, stderr = ...` unpacks a
2-tuple. -/
inductive OrchErr where
  | unpackValueErr
deriving DecidableEq, Repr

/-- The `for script, description in test_scripts` loop: each suite's
success is and-ed into `all_passed`; unpacking the missing-script 2-tuple
raises `ValueError`. -/
def orchLoop (env : String → ScriptFile) :
    List (String × String) → Except OrchErr Bool
  | [] => .ok true
  | (s, _) :: rest =>
    match run_test_script s (env s) with
    | .pair _ _ => .error .unpackValueErr
    | .triple ok _ _ => do
      let restOk ← orchLoop env rest
      .ok (ok && restOk)

/-- `main` of `run_all_tests.py`: 0 iff every suite passed. -/
def orchMain (env : String → ScriptFile) : Except OrchErr Int := do
  let allPassed ← orchLoop env orchScripts
  .ok (if allPassed then 0 else 1)

/-- Process exit code of the orchestrator: `sys.exit(main())`, 1 on an
unhandled exception. -/
def orchFinalCode : Except OrchErr Int → Int
  | .ok c => c
  | .error _ => 1

/-- The suite script's process exited with code 0. -/
def suiteOk : ScriptFile → Bool
  | .present (.completed c _ _) => decide (c = 0)
  | _ => false

/-- A suite process was actually spawned (it completed or was killed on
timeout; a missing script or a raising spawn starts no suite process). -/
def suiteSpawned : ScriptFile → Bool
  | .present (.completed _ _ _) => true
  | .present .timedOut => true
  | _ => false

/-- A suite that timed out, raised, or exited non-zero. -/
def suiteBad : ScriptFile → Bool
  | .present (.completed c _ _) => decide (c ≠ 0)
  | .present .timedOut => true
  | .present (.raised _) => true
  | .missing => false

theorem orchLoop_spawned_ok (env : String → ScriptFile) :
    ∀ l : List (String × String),
      (∀ p ∈ l, suiteSpawned (env p.1) = true) →
      orchLoop env l = .ok (l.all fun p => suiteOk (env p.1)) := by
  intro l
  induction l with
  | nil => intro _; rfl
  | cons hd rest ih =>
    intro hsp
    obtain ⟨s, d⟩ := hd
    have hh := hsp (s, d) (List.mem_cons_self _ _)
    have htl := ih (fun p hp => hsp p (List.mem_cons_of_mem _ hp))
    cases hs : env s with
    | missing => rw [hs] at hh; simp [suiteSpawned] at hh
    | present o =>
      cases o with
      | completed c ot et =>
        simp [orchLoop, run_test_script, hs, htl, suiteOk, Bind.bind,
          Except.bind]
      | timedOut =>
        simp [orchLoop, run_test_script, hs, htl, suiteOk, Bind.bind,
          Except.bind]
      | raised m => rw [hs] at hh; simp [suiteSpawned] at hh

theorem orchLoop_bad (env : String → ScriptFile) :
    ∀ l : List (String × String),
      (∃ p ∈ l, suiteBad (env p.1) = true) →
      orchLoop env l = .error .unpackValueErr ∨ orchLoop env l = .ok false := by
  intro l
  induction l with
  | nil => rintro ⟨p, hp, -⟩; cases hp
  | cons hd rest ih =>
    rintro ⟨p, hp, hbad⟩
    obtain ⟨s, d⟩ := hd
    rcases List.mem_cons.mp hp with rfl | hmem
    · cases hs : env (s, d).1 with
      | missing => rw [hs] at hbad; simp [suiteBad] at hbad
      | present o =>
        cases o with
        | completed c ot et =>
          rw [hs] at hbad
          simp [suiteBad] at hbad
          cases hrest : orchLoop env rest with
          | error e =>
            cases e
            exact Or.inl (by simp [orchLoop, run_test_script, hs, hrest,
              Bind.bind, Except.bind])
          | ok b =>
            exact Or.inr (by simp [orchLoop, run_test_script, hs, hrest,
              hbad, Bind.bind, Except.bind])
        | timedOut =>
          cases hrest : orchLoop env rest with
          | error e =>
            cases e
            exact Or.inl (by simp [orchLoop, run_test_script, hs, hrest,
              Bind.bind, Except.bind])
          | ok b =>
            exact Or.inr (by simp [orchLoop, run_test_script, hs, hrest,
              Bind.bind, Except.bind])
        | raised m =>
          cases hrest : orchLoop env rest with
          | error e =>
            cases e
            exact Or.inl (by simp [orchLoop, run_test_script, hs, hrest,
              Bind.bind, Except.bind])
          | ok b =>
            exact Or.inr (by simp [orchLoop, run_test_script, hs, hrest,
              Bind.bind, Except.bind])
    · have hrest := ih ⟨p, hmem, hbad⟩
      cases hs : env s with
      | missing => exact Or.inl (by simp [orchLoop, run_test_script, hs])
      | present o =>
        rcases hrest with hrest | hrest
        · cases o <;>
            exact Or.inl (by simp [orchLoop, run_test_script, hs, hrest,
              Bind.bind, Except.bind])
        · cases o with
          | completed c ot et =>
            exact Or.inr (by simp [orchLoop, run_test_script, hs, hrest,
              Bind.bind, Except.bind])
          | timedOut =>
            exact Or.inr (by simp [orchLoop, run_test_script, hs, hrest,
              Bind.bind, Except.bind])
          | raised m =>
            exact Or.inr (by simp [orchLoop, run_test_script, hs, hrest,
              Bind.bind, Except.bind])

/-- C10 -- When every suite script was actually spawned, the orchestrator's
process exit code is 0 iff every suite process exited with code 0; and
unconditionally, any suite that timed out, raised, or exited non-zero makes
the final exit code 1. -/
theorem orchestrator_final_code_iff (env : String → ScriptFile) :
    ((∀ p ∈ orchScripts, suiteSpawned (env p.1) = true) →
      (orchFinalCode (orchMain env) = 0 ↔
        ∀ p ∈ orchScripts, suiteOk (env p.1) = true)) ∧
    (∀ p ∈ orchScripts, suiteBad (env p.1) = true →
      orchFinalCode (orchMain env) = 1) := by
  constructor
  · intro hsp
    rw [show orchMain env = .ok (if (orchScripts.all
        fun p => suiteOk (env p.1)) then 0 else 1) by
      simp [orchMain, orchLoop_spawned_ok env orchScripts hsp, Bind.bind,
        Except.bind]]
    by_cases hall : (orchScripts.all fun p => suiteOk (env p.1)) = true
    · simp only [orchFinalCode]
      rw [if_pos hall]
      constructor
      · intro _
        exact fun p hp => List.all_eq_true.mp hall p hp
      · intro _
        rfl
    · simp only [orchFinalCode]
      rw [if_neg hall]
      have hnot : ¬ ∀ p ∈ orchScripts, suiteOk (env p.1) = true := by
        intro hc
        exact hall (List.all_eq_true.mpr hc)
      constructor
      · intro h10
        exact absurd h10 (by norm_num)
      · intro hforall
        exact absurd hforall hnot
  · intro p hp hbad
    rcases orchLoop_bad env orchScripts ⟨p, hp, hbad⟩ with h | h
    · simp [orchMain, h, orchFinalCode, Bind.bind, Except.bind]
    · simp [orchMain, h, orchFinalCode, Bind.bind, Except.bind]

/-- Environment in which both suite scripts exist and exit 0. -/
def orchAllPassEnv : String → ScriptFile :=
  fun _ => .present (.completed 0 ("") (""))

/-- Witness for C10: with both suites passing, the final exit code is 0. -/
theorem orchestrator_final_code_iff_w :
    orchFinalCode (orchMain orchAllPassEnv) = 0 :=
  ((orchestrator_final_code_iff orchAllPassEnv).1 (by decide)).mpr (by decide)
